import Mathlib

/-!
Verification of the presence subsystem of the agora backend gateway.

The embedded code is `src/backend/api/src/routes/users.rs` (`set_presence`,
`get_presence`) and `src/backend/api/src/routes/presence_ws.rs`
(`handle_socket`).  Rust strings are modelled as `List Char`; the external
redis key-value store and the tokio broadcast channel are external
collaborators whose contracts are modelled from the spec (§4.1, §4.2).
-/

namespace Agora

/-- Rust `String` / `&str`, modelled as a list of characters. -/
abbrev Str := List Char

/-- The key tag `presence:` used by `format!("presence:{}", user_id)` in
`set_presence` and by the snapshot scan pattern `presence:*` in
`handle_socket`. -/
def presencePre : Str := "presence:".data

/-- `PRESENCE_TTL_SECS` from `routes/users.rs` line 15. -/
def PRESENCE_TTL_SECS : Nat := 300

/-- `PresenceEvent` from `app_state.rs`: the transient `{user_id, presence}`
pair broadcast on the fan-out bus. -/
structure PresenceEvent where
  user_id : Str
  presence : Str
deriving DecidableEq

/-- `SetPresenceRequest` from `routes/users.rs`. -/
structure SetPresenceRequest where
  access_token : Str
  user_id : Str
  presence : Str
  status_msg : Option Str
deriving DecidableEq

/-- `GetPresenceQuery` from `routes/users.rs`. -/
structure GetPresenceQuery where
  access_token : Str
  user_id : Str
deriving DecidableEq

/-- `PresenceResponse` from `routes/users.rs`. -/
structure PresenceResponse where
  presence : Str
  last_active_ago : Option Int
  status_msg : Option Str
  currently_active : Option Bool
deriving DecidableEq

/-- The HTTP status codes returned by `set_presence`. -/
inductive StatusCode where
  | ok
  | serviceUnavailable
  | internalServerError
deriving DecidableEq

/-- One entry of the external presence store: a key, its value, and the
time-to-live it was last written with. -/
structure Entry where
  key : Str
  value : Str
  ttl : Nat
deriving DecidableEq

/-- Modelled from the spec: §4.1, the external key-value store (redis) is not
part of this repository; it is embedded as an association list of entries
with distinct keys, carrying the ttl each key was last set with. -/
structure Store where
  entries : List Entry
deriving DecidableEq

/-- Modelled from the spec: §4.1 `get(key) -> value|absent`. -/
def Store.get (s : Store) (k : Str) : Option Str :=
  (s.entries.find? (fun e => e.key = k)).map Entry.value

/-- The ttl the key was last set with (absent key has no ttl). -/
def Store.getTtl (s : Store) (k : Str) : Option Nat :=
  (s.entries.find? (fun e => e.key = k)).map Entry.ttl

/-- Modelled from the spec: §4.1 `delete(key)`: immediate removal, idempotent
(deleting a non-existent key is not an error). -/
def Store.del (s : Store) (k : Str) : Store :=
  ⟨s.entries.filter (fun e => ¬ e.key = k)⟩

/-- Modelled from the spec: §4.1 `set(key, value, ttl)`: upsert with expiry. -/
def Store.setEx (s : Store) (k v : Str) (ttl : Nat) : Store :=
  ⟨⟨k, v, ttl⟩ :: s.entries.filter (fun e => ¬ e.key = k)⟩

/-- Modelled from the spec: §4.1 `scan(prefix) -> set of keys`, the
`redis.keys("presence:*")` call of the snapshot. -/
def Store.scanKeys (s : Store) (pre : Str) : List Str :=
  (s.entries.filter (fun e => pre.isPrefixOf e.key)).map Entry.key

/-- Result of `set_presence` (`routes/users.rs` lines 77-113): the returned
status code, the store after the call (`none` when redis was unavailable),
and the list of events handed to the fan-out bus during the call.
`opFails` models the external `RedisResult` of the store round-trip;
`subscribers` is the bus receiver count, whose only effect in the source is
the ignored `Err` of `presence_tx.send`. -/
structure SetPresenceOutcome where
  status : StatusCode
  redis : Option Store
  published : List PresenceEvent
deriving DecidableEq

/-- `set_presence` from `routes/users.rs` lines 77-113:
redis unavailable returns 503; the store op is delete for `"offline"` and
`set_ex` with `PRESENCE_TTL_SECS` otherwise; a store error returns 500
before any publish; on store success the event `{user_id, presence}` is sent
on the bus (the send result is ignored, so zero subscribers is not an error)
and 200 is returned.  Note the source performs no validation of
`req.presence`. -/
def set_presence (redis : Option Store) (opFails : Bool) (subscribers : Nat)
    (req : SetPresenceRequest) : SetPresenceOutcome :=
  match redis with
  | none => ⟨.serviceUnavailable, none, []⟩
  | some store =>
    let key := presencePre ++ req.user_id
    let value := req.presence
    if opFails then
      ⟨.internalServerError, some store, []⟩
    else
      let store' :=
        if value = "offline".data then store.del key
        else store.setEx key value PRESENCE_TTL_SECS
      -- send() only errors if there are no receivers — that's ignored
      let _sendResult : Bool := subscribers ≠ 0
      ⟨.ok, some store', [⟨req.user_id, req.presence⟩]⟩

/-- `get_presence` from `routes/users.rs` lines 116-142: redis unavailable
returns an offline response; a failed or absent read (`unwrap_or(None)`)
defaults to `"offline"`; the endpoint always returns a `PresenceResponse`
(never a hard error). `getFails` models the external `RedisResult` of the
read. -/
def get_presence (redis : Option Store) (getFails : Bool)
    (params : GetPresenceQuery) : PresenceResponse :=
  match redis with
  | none => ⟨"offline".data, none, none, some false⟩
  | some store =>
    let key := presencePre ++ params.user_id
    let value : Option Str := if getFails then none else store.get key
    let presence := value.getD "offline".data
    ⟨presence, none, none, some (presence = "online".data)⟩

/-- Strip the pattern from the front of the string while it is a prefix, at
most `fuel` times.  Each strip removes at least one character when the
pattern is non-empty, so any `fuel ≥ s.length` reaches the fixed point. -/
def trimStripN (pat : Str) : Nat → Str → Str
  | 0, s => s
  | fuel + 1, s =>
    if pat ≠ [] ∧ pat.isPrefixOf s then trimStripN pat fuel (s.drop pat.length)
    else s

/-- Rust `str::trim_start_matches`: repeatedly strips the pattern from the
front of the string for as long as it is a prefix (used at
`presence_ws.rs` line 47 to turn a store key back into a user id).
`s.length` strips always suffice to reach the fixed point. -/
def trimStartMatches (pat s : Str) : Str :=
  trimStripN pat s.length s

/-- The snapshot phase of `handle_socket` (`presence_ws.rs` lines 41-56):
scan the store for `presence:*` keys, look each key up
(`unwrap_or(None)` maps a failed lookup, modelled by `failing`, to absence),
and emit one `PresenceEvent` per key that resolved to a value, with the
user id recovered by `trim_start_matches("presence:")`. -/
def snapshot (store : Store) (failing : List Str) : List PresenceEvent :=
  (store.scanKeys presencePre).filterMap (fun key =>
    match (if key ∈ failing then none else store.get key) with
    | some presence => some ⟨trimStartMatches presencePre key, presence⟩
    | none => none)

/-- The three phases of `handle_socket` in source order
(`presence_ws.rs`): line 38 subscribes to the broadcast channel, lines
41-56 send the snapshot, lines 59-90 run the streaming loop. -/
inductive ConnOp where
  | subscribe
  | snapshotScan
  | streamPhase
deriving DecidableEq

/-- The order in which `handle_socket` performs its phases: subscribe to the
bus first, then scan the store for the snapshot, then stream. -/
def handleSocketConnSeq : List ConnOp :=
  [ConnOp.subscribe, ConnOp.snapshotScan, ConnOp.streamPhase]

/-- A time assignment for the reader's connection phases that respects the
program order of `handleSocketConnSeq`. -/
def ConnSchedule (t : ConnOp → Nat) : Prop :=
  handleSocketConnSeq.Chain' (fun a b => t a < t b)

/-- A concrete schedule assigning one tick per connection phase, in program
order. -/
def exampleSchedule : ConnOp → Nat
  | ConnOp.subscribe => 0
  | ConnOp.snapshotScan => 1
  | ConnOp.streamPhase => 2

/-- A result of `rx.recv()` on the broadcast subscription
(`tokio::sync::broadcast`): an event, a lagged notice carrying the dropped
count, or a closed channel. -/
inductive RecvResult where
  | ok (e : PresenceEvent)
  | lagged (n : Nat)
  | closed
deriving DecidableEq

/-- An inbound client frame as matched in the loop of `handle_socket`:
a close frame, a ping (answered with a pong), or any other frame
(ignored); `none` models the stream ending (`None` from `receiver.next()`). -/
inductive ClientMsg where
  | close
  | ping (data : Str)
  | other
deriving DecidableEq

/-- One resolved arm of the `tokio::select!` in `handle_socket`: either the
bus subscription yielded a `RecvResult` or the client socket yielded a
frame. -/
inductive LoopIn where
  | fromBus (r : RecvResult)
  | fromClient (m : Option ClientMsg)
deriving DecidableEq

/-- Whether this input makes the loop of `handle_socket` break: a closed
broadcast channel, a client close frame, or the client stream ending. -/
def LoopIn.breaksLoop : LoopIn → Bool
  | .fromBus .closed => true
  | .fromClient none => true
  | .fromClient (some .close) => true
  | _ => false

/-- The observable outcome of running the streaming loop of `handle_socket`
over a finite schedule of inputs (all websocket sends assumed delivered):
the events forwarded to the client, the pongs sent, the lag counts that
were logged, and whether the loop broke. -/
structure LoopResult where
  sent : List PresenceEvent
  pongs : List Str
  laggedLogs : List Nat
  broke : Bool
deriving DecidableEq

/-- The streaming loop of `handle_socket` (`presence_ws.rs` lines 59-90) on a
finite schedule of select-arm resolutions: `Ok(event)` is forwarded and the
loop continues; `Lagged(n)` logs `n` and continues; `Closed`, a client close
frame, or the client stream ending break the loop; a ping is answered with
a pong; other client frames are ignored. -/
def streamLoop : List LoopIn → LoopResult
  | [] => ⟨[], [], [], false⟩
  | .fromBus (.ok e) :: rest =>
    let r := streamLoop rest
    ⟨e :: r.sent, r.pongs, r.laggedLogs, r.broke⟩
  | .fromBus (.lagged n) :: rest =>
    let r := streamLoop rest
    ⟨r.sent, r.pongs, n :: r.laggedLogs, r.broke⟩
  | .fromBus .closed :: _ => ⟨[], [], [], true⟩
  | .fromClient none :: _ => ⟨[], [], [], true⟩
  | .fromClient (some .close) :: _ => ⟨[], [], [], true⟩
  | .fromClient (some (.ping d)) :: rest =>
    let r := streamLoop rest
    ⟨r.sent, d :: r.pongs, r.laggedLogs, r.broke⟩
  | .fromClient (some .other) :: rest => streamLoop rest

/-- A concrete store with users A and B online (and no other key), as in the
snapshot-completeness example of the spec. -/
def storeAB : Store :=
  ⟨[⟨presencePre ++ "A".data, "online".data, PRESENCE_TTL_SECS⟩,
    ⟨presencePre ++ "B".data, "online".data, PRESENCE_TTL_SECS⟩]⟩

/-! ### helper lemmas about `trimStartMatches` -/

theorem trimStripN_eq_of_le (pat : Str) :
    ∀ (fuel₁ fuel₂ : Nat) (s : Str), s.length ≤ fuel₁ →
      s.length ≤ fuel₂ → trimStripN pat fuel₁ s = trimStripN pat fuel₂ s := by
  intro fuel₁
  induction fuel₁ with
  | zero =>
    intro fuel₂ s hs1 _
    have hs0 : s = [] := by
      cases s with
      | nil => rfl
      | cons a t => simp at hs1
    subst hs0
    cases fuel₂ with
    | zero => rfl
    | succ f =>
      unfold trimStripN
      rw [if_neg]
      rintro ⟨hne, hp⟩
      exact hne (List.prefix_nil.mp ( List.isPrefixOf_iff_prefix.mp hp))
  | succ f ih =>
    intro fuel₂ s hs1 hs2
    by_cases hc : pat ≠ [] ∧ pat.isPrefixOf s
    · have hp : pat <+: s := List.isPrefixOf_iff_prefix.mp hc.2
      have hpos : 0 < pat.length := List.length_pos.mpr hc.1
      have hle : pat.length ≤ s.length := hp.length_le
      have hspos : 0 < s.length := by omega
      cases fuel₂ with
      | zero => omega
      | succ g =>
        unfold trimStripN
        rw [if_pos hc, if_pos hc]
        have hd : (s.drop pat.length).length = s.length - pat.length := by
          simp [List.length_drop]
        exact ih g (s.drop pat.length) (by omega) (by omega)
    · cases fuel₂ with
      | zero =>
        have hs0 : s = [] := by
          cases s with
          | nil => rfl
          | cons a t => simp at hs2
        subst hs0
        unfold trimStripN
        rw [if_neg hc]
      | succ g =>
        unfold trimStripN
        rw [if_neg hc, if_neg hc]

theorem trimStartMatches_step (pat s : Str) (h1 : pat ≠ [])
    (h2 : pat.isPrefixOf s) :
    trimStartMatches pat s = trimStartMatches pat (s.drop pat.length) := by
  have hp : pat <+: s := List.isPrefixOf_iff_prefix.mp h2
  have hpos : 0 < pat.length := List.length_pos.mpr h1
  have hle : pat.length ≤ s.length := hp.length_le
  have hd : (s.drop pat.length).length = s.length - pat.length := by
    simp [List.length_drop]
  unfold trimStartMatches
  have hlen : ∃ m, s.length = m + 1 := ⟨s.length - 1, by omega⟩
  obtain ⟨m, hm⟩ := hlen
  rw [hm]
  conv_lhs => rw [trimStripN]
  rw [if_pos ⟨h1, h2⟩]
  exact trimStripN_eq_of_le pat m (s.drop pat.length).length (s.drop pat.length)
    (by omega) (by omega)

theorem trimStartMatches_of_not (pat s : Str) (h : ¬ pat.isPrefixOf s) :
    trimStartMatches pat s = s := by
  cases s with
  | nil => rfl
  | cons a t =>
    unfold trimStartMatches
    simp only [List.length_cons]
    unfold trimStripN
    rw [if_neg]
    rintro ⟨_, hc⟩
    exact h hc

theorem trimStartMatches_append (pat u : Str) (h1 : pat ≠ []) :
    trimStartMatches pat (pat ++ u) = trimStartMatches pat u := by
  have h2 : pat.isPrefixOf (pat ++ u) :=
    List.isPrefixOf_iff_prefix.mpr (List.prefix_append pat u)
  rw [trimStartMatches_step pat (pat ++ u) h1 h2, List.drop_left]

theorem trimStripN_length_le (pat : Str) :
    ∀ (fuel : Nat) (s : Str), (trimStripN pat fuel s).length ≤ s.length := by
  intro fuel
  induction fuel with
  | zero => intro s; exact Nat.le_refl _
  | succ f ih =>
    intro s
    unfold trimStripN
    split
    · next h =>
      have hp : pat <+: s := List.isPrefixOf_iff_prefix.mp h.2
      have h3 := ih (s.drop pat.length)
      have hd : (s.drop pat.length).length = s.length - pat.length := by
        simp [List.length_drop]
      omega
    · exact Nat.le_refl _

theorem trimStartMatches_length_le (pat s : Str) :
    (trimStartMatches pat s).length ≤ s.length :=
  trimStripN_length_le pat s.length s

theorem trimStartMatches_length_lt (pat s : Str) (h1 : pat ≠ [])
    (h2 : pat.isPrefixOf s) :
    (trimStartMatches pat s).length < s.length := by
  rw [trimStartMatches_step pat s h1 h2]
  have hp : pat <+: s := List.isPrefixOf_iff_prefix.mp h2
  have hpos : 0 < pat.length := List.length_pos.mpr h1
  have hle : pat.length ≤ s.length := hp.length_le
  have h3 := trimStartMatches_length_le pat (s.drop pat.length)
  have hdrop : (s.drop pat.length).length = s.length - pat.length := by
    simp [List.length_drop]
  omega

/-! ### helper lemmas about `Store` -/

theorem Store.get_del_self (s : Store) (k : Str) : (s.del k).get k = none := by
  unfold Store.get Store.del
  have hfind : (s.entries.filter (fun e => ¬ e.key = k)).find?
      (fun e => e.key = k) = none := by
    rw [List.find?_eq_none]
    intro e he
    rw [List.mem_filter] at he
    simpa using he.2
  rw [hfind]
  rfl

theorem Store.get_setEx_self (s : Store) (k v : Str) (ttl : Nat) :
    (s.setEx k v ttl).get k = some v := by
  unfold Store.get Store.setEx
  rw [List.find?_cons_of_pos _ (by simp)]
  rfl

theorem Store.getTtl_setEx_self (s : Store) (k v : Str) (ttl : Nat) :
    (s.setEx k v ttl).getTtl k = some ttl := by
  unfold Store.getTtl Store.setEx
  rw [List.find?_cons_of_pos _ (by simp)]
  rfl

theorem find_entry_of_mem (l : List Entry)
    (hnd : (l.map Entry.key).Nodup)
    (e : Entry) (he : e ∈ l) :
    (l.find? (fun x => x.key = e.key)).map Entry.value = some e.value := by
  induction l with
  | nil => cases he
  | cons a rest ih =>
    rcases List.mem_cons.mp he with h | h
    · subst h
      rw [List.find?_cons_of_pos _ (by simp)]
      rfl
    · by_cases hk : a.key = e.key
      · exfalso
        rw [List.map_cons, List.nodup_cons] at hnd
        exact hnd.1 (hk ▸ (List.mem_map_of_mem Entry.key h))
      · rw [List.find?_cons_of_neg _ (by simpa using hk)]
        rw [List.map_cons, List.nodup_cons] at hnd
        exact ih hnd.2 h

theorem Store.get_of_mem (s : Store)
    (hnd : (s.entries.map Entry.key).Nodup)
    (e : Entry) (he : e ∈ s.entries) : s.get e.key = some e.value := by
  unfold Store.get
  exact find_entry_of_mem s.entries hnd e he

theorem Store.get_eq_some_iff (s : Store)
    (hnd : (s.entries.map Entry.key).Nodup) (k v : Str) :
    s.get k = some v ↔ ∃ e ∈ s.entries, e.key = k ∧ e.value = v := by
  constructor
  · intro h
    unfold Store.get at h
    rcases Option.map_eq_some.mp h with ⟨e, he, hv⟩
    exact ⟨e, List.mem_of_find?_eq_some he, by simpa using List.find?_some he, hv⟩
  · rintro ⟨e, he, hk, hv⟩
    have := Store.get_of_mem s hnd e he
    rw [hk, hv] at this
    exact this

/-! ### helper lemmas about `snapshot` -/

theorem snapshot_aux (store : Store) (failing : List Str) :
    ∀ l : List Entry, (∀ e ∈ l, store.get e.key = some e.value) →
      l.filterMap (fun e =>
        match (if e.key ∈ failing then none else store.get e.key) with
        | some presence =>
          some (⟨trimStartMatches presencePre e.key, presence⟩ : PresenceEvent)
        | none => none) =
      (l.filter (fun e => ¬ e.key ∈ failing)).map
        (fun e => ⟨trimStartMatches presencePre e.key, e.value⟩) := by
  intro l
  induction l with
  | nil => intro _; rfl
  | cons a rest ih =>
    intro h
    have ha := h a (List.mem_cons_self a rest)
    have hrest := fun e he => h e (List.mem_cons_of_mem a he)
    by_cases hf : a.key ∈ failing
    · simp [List.filterMap_cons, List.filter_cons, hf, ih hrest]
    · simp [List.filterMap_cons, List.filter_cons, hf, ha, ih hrest]

theorem snapshot_eq (store : Store) (failing : List Str)
    (hnd : (store.entries.map Entry.key).Nodup) :
    snapshot store failing =
      ((store.entries.filter (fun e => presencePre.isPrefixOf e.key)).filter
          (fun e => ¬ e.key ∈ failing)).map
        (fun e => ⟨trimStartMatches presencePre e.key, e.value⟩) := by
  unfold snapshot Store.scanKeys
  rw [List.filterMap_map]
  exact snapshot_aux store failing _ (fun e he =>
    Store.get_of_mem store hnd e (List.mem_of_mem_filter he))

theorem snapshot_singleton (k v : Str) (ttl : Nat)
    (hk : presencePre.isPrefixOf k) :
    snapshot ⟨[⟨k, v, ttl⟩]⟩ [] =
      [⟨trimStartMatches presencePre k, v⟩] := by
  have hnd : ((Store.mk [⟨k, v, ttl⟩]).entries.map Entry.key).Nodup := by
    simp
  rw [snapshot_eq _ _ hnd]
  simp [List.filter_cons, hk]

/-! ## Claim theorems -/

/-- C1: the claim says a presence-set request whose presence value is not one
of online/offline/unavailable (e.g. "away") is rejected before any store
mutation and before any bus publish.  `set_presence` performs no validation
of `req.presence`: evaluating it on the request with presence "away" and an
available, initially empty store shows the handler returns 200 OK, upserts
the key with value "away" and the TTL, and publishes the event. -/
theorem away_request_not_rejected :
    set_presence (some ⟨[]⟩) false 1
        ⟨"t".data, "alice".data, "away".data, none⟩ =
      ⟨StatusCode.ok,
       some ⟨[⟨presencePre ++ "alice".data, "away".data, PRESENCE_TTL_SECS⟩]⟩,
       [⟨"alice".data, "away".data⟩]⟩ := by
  decide

/-- C2: `set_presence` publishes the event `{user_id, presence}` if and only
if the store mutation succeeded (the call returned 200 OK); on failure
(redis unavailable, or the store round-trip erroring) it reports the failure
status without publishing and without touching the store, and the whole
outcome is independent of the number of bus subscribers (the ignored
`send` result), so zero subscribers is not an error. -/
theorem publish_iff_store_success (redis : Option Store) (opFails : Bool)
    (subscribers : Nat) (req : SetPresenceRequest) :
    ((set_presence redis opFails subscribers req).status = StatusCode.ok ↔
      (set_presence redis opFails subscribers req).published =
        [⟨req.user_id, req.presence⟩])
    ∧ ((set_presence redis opFails subscribers req).status ≠ StatusCode.ok →
        (set_presence redis opFails subscribers req).published = [] ∧
        (set_presence redis opFails subscribers req).redis = redis)
    ∧ ((redis.isSome ∧ opFails = false) →
        (set_presence redis opFails subscribers req).status = StatusCode.ok)
    ∧ (set_presence redis opFails subscribers req =
        set_presence redis opFails 0 req) := by
  cases redis <;> cases opFails <;> simp [set_presence]

/-- Witness for C2 at a concrete input: with an unavailable store nothing is
published, and with an available store and a successful round-trip the call
reports 200 OK. -/
theorem publish_iff_store_success_witness :
    ((set_presence none false 3
        ⟨"t".data, "bob".data, "online".data, none⟩).published = [] ∧
      (set_presence none false 3
        ⟨"t".data, "bob".data, "online".data, none⟩).redis = none)
    ∧ (set_presence (some ⟨[]⟩) false 0
        ⟨"t".data, "bob".data, "online".data, none⟩).status = StatusCode.ok :=
  ⟨(publish_iff_store_success none false 3
      ⟨"t".data, "bob".data, "online".data, none⟩).2.1 (by decide),
   (publish_iff_store_success (some ⟨[]⟩) false 0
      ⟨"t".data, "bob".data, "online".data, none⟩).2.2.1 (by decide)⟩

/-- C3: on a successful round-trip, `set_presence` deletes the key
`presence:{user_id}` when the requested presence is "offline" (leaving the
key absent), and otherwise upserts the key with the requested value and the
refreshed TTL `PRESENCE_TTL_SECS`. -/
theorem set_presence_store_effect (store : Store) (subscribers : Nat)
    (req : SetPresenceRequest) :
    (req.presence = "offline".data →
      (set_presence (some store) false subscribers req).redis =
        some (store.del (presencePre ++ req.user_id)) ∧
      (store.del (presencePre ++ req.user_id)).get
        (presencePre ++ req.user_id) = none)
    ∧ (req.presence ≠ "offline".data →
      (set_presence (some store) false subscribers req).redis =
        some (store.setEx (presencePre ++ req.user_id) req.presence
          PRESENCE_TTL_SECS) ∧
      (store.setEx (presencePre ++ req.user_id) req.presence
        PRESENCE_TTL_SECS).get (presencePre ++ req.user_id) =
          some req.presence ∧
      (store.setEx (presencePre ++ req.user_id) req.presence
        PRESENCE_TTL_SECS).getTtl (presencePre ++ req.user_id) =
          some PRESENCE_TTL_SECS) := by
  constructor
  · intro h
    exact ⟨by simp [set_presence, h], Store.get_del_self _ _⟩
  · intro h
    exact ⟨by simp [set_presence, h], Store.get_setEx_self _ _ _ _,
      Store.getTtl_setEx_self _ _ _ _⟩

/-- Witness for C3 at concrete inputs: an offline request deletes the key and
an online request upserts it with the TTL. -/
theorem set_presence_store_effect_witness :
    ((set_presence (some ⟨[]⟩) false 0
        ⟨"t".data, "bob".data, "offline".data, none⟩).redis =
      some ((⟨[]⟩ : Store).del (presencePre ++ "bob".data)))
    ∧ ((set_presence (some ⟨[]⟩) false 0
        ⟨"t".data, "bob".data, "online".data, none⟩).redis =
      some ((⟨[]⟩ : Store).setEx (presencePre ++ "bob".data) "online".data
        PRESENCE_TTL_SECS)) :=
  ⟨((set_presence_store_effect ⟨[]⟩ 0
      ⟨"t".data, "bob".data, "offline".data, none⟩).1 (by decide)).1,
   ((set_presence_store_effect ⟨[]⟩ 0
      ⟨"t".data, "bob".data, "online".data, none⟩).2 (by decide)).1⟩

/-- C4: `get_presence` is a total function into `PresenceResponse` — it never
reports a hard error to the caller — and it answers "offline" whenever the
store is unavailable, the read round-trip fails (`unwrap_or(None)`), or the
user's key is absent. -/
theorem get_presence_defaults_offline (store : Store) (getFails : Bool)
    (params : GetPresenceQuery) :
    ((get_presence none getFails params).presence = "offline".data)
    ∧ ((get_presence (some store) true params).presence = "offline".data)
    ∧ (store.get (presencePre ++ params.user_id) = none →
        (get_presence (some store) false params).presence = "offline".data) := by
  refine ⟨by simp [get_presence], by simp [get_presence], ?_⟩
  intro h
  simp [get_presence, h]

/-- Witness for C4 at a concrete input: an empty store has no key for the
user, and the response is "offline". -/
theorem get_presence_defaults_offline_witness :
    (Store.get ⟨[]⟩ (presencePre ++ "bob".data) = none) ∧
    (get_presence (some ⟨[]⟩) false ⟨"t".data, "bob".data⟩).presence =
      "offline".data :=
  ⟨by decide,
   (get_presence_defaults_offline ⟨[]⟩ false ⟨"t".data, "bob".data⟩).2.2
     (by decide)⟩

/-- C8: setting presence to "offline" twice in a row succeeds both times
(both calls return 200 OK) and leaves the store key for the user absent
after each call; the second delete acts on an already-absent key and is not
an error (store delete is idempotent, §4.1). -/
theorem offline_twice_idempotent (store : Store) (subscribers : Nat)
    (tok u : Str) :
    (set_presence (some store) false subscribers
      ⟨tok, u, "offline".data, none⟩).status = StatusCode.ok
    ∧ (set_presence (some store) false subscribers
        ⟨tok, u, "offline".data, none⟩).redis =
      some (store.del (presencePre ++ u))
    ∧ (store.del (presencePre ++ u)).get (presencePre ++ u) = none
    ∧ (set_presence (some (store.del (presencePre ++ u))) false subscribers
        ⟨tok, u, "offline".data, none⟩).status = StatusCode.ok
    ∧ (set_presence (some (store.del (presencePre ++ u))) false subscribers
        ⟨tok, u, "offline".data, none⟩).redis =
      some ((store.del (presencePre ++ u)).del (presencePre ++ u))
    ∧ ((store.del (presencePre ++ u)).del (presencePre ++ u)).get
        (presencePre ++ u) = none := by
  refine ⟨by simp [set_presence], by simp [set_presence],
    Store.get_del_self _ _, by simp [set_presence], by simp [set_presence],
    Store.get_del_self _ _⟩

/-- C9 counterexample: the claim says a successful non-offline presence-set
carrying a status message stores that message alongside the presence.
Evaluating `set_presence` on a request with presence "online" and
status message "busy" shows the stored value is exactly "online"; "busy"
does not occur in it. -/
theorem status_msg_not_stored :
    (set_presence (some ⟨[]⟩) false 1
        ⟨"t".data, "alice".data, "online".data, some "busy".data⟩).redis =
      some ⟨[⟨presencePre ++ "alice".data, "online".data, PRESENCE_TTL_SECS⟩]⟩
    ∧ ¬ ("busy".data <:+: "online".data) := by
  constructor
  · decide
  · decide

/-- C9 amended: the stored value of a successful non-offline presence-set is
exactly the presence string; the request's status message is ignored — the
whole outcome is independent of `status_msg`. -/
theorem stored_value_is_presence_only (store : Store) (subscribers : Nat)
    (tok u p : Str) (msg : Option Str) (h : p ≠ "offline".data) :
    (set_presence (some store) false subscribers ⟨tok, u, p, msg⟩).redis =
      some (store.setEx (presencePre ++ u) p PRESENCE_TTL_SECS)
    ∧ (store.setEx (presencePre ++ u) p PRESENCE_TTL_SECS).get
        (presencePre ++ u) = some p
    ∧ set_presence (some store) false subscribers ⟨tok, u, p, msg⟩ =
      set_presence (some store) false subscribers ⟨tok, u, p, none⟩ := by
  exact ⟨by simp [set_presence, h], Store.get_setEx_self _ _ _ _,
    by simp [set_presence]⟩

/-- Witness for the amended C9 at a concrete input: with status message
"busy" the stored value under the user's key is exactly "online". -/
theorem stored_value_is_presence_only_witness :
    (set_presence (some ⟨[]⟩) false 1
        ⟨"t".data, "alice".data, "online".data, some "busy".data⟩).redis =
      some ((⟨[]⟩ : Store).setEx (presencePre ++ "alice".data) "online".data
        PRESENCE_TTL_SECS) :=
  (stored_value_is_presence_only ⟨[]⟩ 1 "t".data "alice".data "online".data
    (some "busy".data) (by decide)).1

/-- C5: in `handle_socket` the bus subscription is taken before the snapshot
scan (first conjunct: the program order recorded in `handleSocketConnSeq`).
Consequently, for any write that is concurrent with the connection sequence
— the writer mutates the store at `tStore` and then publishes at
`tPublish`, per the write path's order — the connecting stream observes the
change at least once: either the store mutation precedes the scan (the
change is in the snapshot, store contract §4.1) or the publish follows the
subscribe (the event is delivered on the subscription, bus contract §4.2);
never zero times. -/
theorem subscribe_before_snapshot_no_missed_event
    (t : ConnOp → Nat) (tStore tPublish : Nat)
    (hsched : ConnSchedule t) (hwriter : tStore < tPublish) :
    t ConnOp.subscribe < t ConnOp.snapshotScan
    ∧ (tStore < t ConnOp.snapshotScan ∨ t ConnOp.subscribe < tPublish) := by
  have hss : t ConnOp.subscribe < t ConnOp.snapshotScan := by
    unfold ConnSchedule handleSocketConnSeq at hsched
    rw [List.chain'_cons, List.chain'_cons] at hsched
    exact hsched.1
  refine ⟨hss, ?_⟩
  by_cases hc : t ConnOp.subscribe < tPublish
  · exact Or.inr hc
  · exact Or.inl (by omega)

/-- Witness for C5 at a concrete schedule: subscribe at tick 0, scan at tick
1, with a write whose store mutation is at tick 0 and publish at tick 1. -/
theorem subscribe_before_snapshot_no_missed_event_witness :
    exampleSchedule ConnOp.subscribe < exampleSchedule ConnOp.snapshotScan
    ∧ (0 < exampleSchedule ConnOp.snapshotScan ∨
        exampleSchedule ConnOp.subscribe < 1) :=
  subscribe_before_snapshot_no_missed_event exampleSchedule 0 1
    (by
      unfold ConnSchedule handleSocketConnSeq
      rw [List.chain'_cons, List.chain'_cons]
      exact ⟨by decide, by decide, List.chain'_singleton _⟩)
    (by decide)

/-- C7: a lagged-subscriber condition never terminates the session.  If the
loop of `handle_socket` processes inputs `pre`, none of which breaks the
loop, then a `Lagged n` notice, then `post`: the lag count `n` is logged
between the logs of `pre` and `post`, every event of `pre` and of `post` is
still forwarded, and the loop breaks only if `post` itself breaks it — the
connection stays open across the gap and keeps receiving everything
published after it. -/
theorem lagged_logged_and_loop_continues (pre post : List LoopIn) (n : Nat)
    (h : ∀ x ∈ pre, x.breaksLoop = false) :
    streamLoop (pre ++ LoopIn.fromBus (RecvResult.lagged n) :: post) =
      ⟨(streamLoop pre).sent ++ (streamLoop post).sent,
       (streamLoop pre).pongs ++ (streamLoop post).pongs,
       (streamLoop pre).laggedLogs ++ n :: (streamLoop post).laggedLogs,
       (streamLoop post).broke⟩ := by
  induction pre with
  | nil => simp [streamLoop]
  | cons a rest ih =>
    have ha := h a (List.mem_cons_self a rest)
    have hrest : ∀ x ∈ rest, x.breaksLoop = false :=
      fun x hx => h x (List.mem_cons_of_mem a hx)
    cases a with
    | fromBus r =>
      cases r with
      | ok e => simp [streamLoop, ih hrest]
      | lagged m => simp [streamLoop, ih hrest]
      | closed => simp [LoopIn.breaksLoop] at ha
    | fromClient m =>
      cases m with
      | none => simp [LoopIn.breaksLoop] at ha
      | some c =>
        cases c with
        | close => simp [LoopIn.breaksLoop] at ha
        | ping d => simp [streamLoop, ih hrest]
        | other => simp [streamLoop, ih hrest]

/-- Witness for C7 at a concrete schedule: an event, then a lag notice for 5
dropped events, then another event — both events are forwarded, the count 5
is logged, and the loop does not break. -/
theorem lagged_logged_and_loop_continues_witness :
    streamLoop
        [LoopIn.fromBus (RecvResult.ok ⟨"a".data, "online".data⟩),
         LoopIn.fromBus (RecvResult.lagged 5),
         LoopIn.fromBus (RecvResult.ok ⟨"b".data, "offline".data⟩)] =
      ⟨[⟨"a".data, "online".data⟩, ⟨"b".data, "offline".data⟩], [], [5],
       false⟩ :=
  Eq.trans
    (lagged_logged_and_loop_continues
      [LoopIn.fromBus (RecvResult.ok ⟨"a".data, "online".data⟩)]
      [LoopIn.fromBus (RecvResult.ok ⟨"b".data, "offline".data⟩)] 5
      (by decide))
    (by decide)

/-- C10: the snapshot reconstructs a user id by stripping every leading
"presence:" run from the store key (`trim_start_matches`).  Writing presence
for a user id `u` stores the key `presence: ++ u`; for a `u` that does not
itself begin with "presence:" the snapshot then emits exactly the event
`{u, online}`, while for a `u` that does begin with "presence:" every
emitted user id differs from `u` (the extra prefix is stripped too). -/
theorem snapshot_user_id_roundtrip :
    (∀ u : Str, ¬ presencePre.isPrefixOf u →
      snapshot ((⟨[]⟩ : Store).setEx (presencePre ++ u) "online".data
        PRESENCE_TTL_SECS) [] = [⟨u, "online".data⟩])
    ∧ (∀ u : Str, presencePre.isPrefixOf u →
      ∀ e ∈ snapshot ((⟨[]⟩ : Store).setEx (presencePre ++ u) "online".data
        PRESENCE_TTL_SECS) [], e.user_id ≠ u) := by
  have hne : presencePre ≠ [] := by decide
  have hsing : ∀ u : Str,
      (⟨[]⟩ : Store).setEx (presencePre ++ u) "online".data
        PRESENCE_TTL_SECS =
      ⟨[⟨presencePre ++ u, "online".data, PRESENCE_TTL_SECS⟩]⟩ :=
    fun u => rfl
  have hpk : ∀ u : Str, presencePre.isPrefixOf (presencePre ++ u) :=
    fun u => List.isPrefixOf_iff_prefix.mpr (List.prefix_append _ _)
  constructor
  · intro u hu
    rw [hsing u, snapshot_singleton _ _ _ (hpk u),
      trimStartMatches_append _ _ hne, trimStartMatches_of_not _ _ hu]
  · intro u hu e he
    rw [hsing u, snapshot_singleton _ _ _ (hpk u)] at he
    rw [List.mem_singleton] at he
    subst he
    show trimStartMatches presencePre (presencePre ++ u) ≠ u
    rw [trimStartMatches_append _ _ hne]
    intro heq
    have hlt := trimStartMatches_length_lt presencePre u hne hu
    rw [heq] at hlt
    exact Nat.lt_irrefl _ hlt

/-- Witness for C10 at concrete inputs: for user id "bob" the snapshot of
the written store emits exactly `{bob, online}`; for user id
"presence:bob" the emitted user id (which is "bob") differs from the one
written. -/
theorem snapshot_user_id_roundtrip_witness :
    (snapshot ((⟨[]⟩ : Store).setEx (presencePre ++ "bob".data)
        "online".data PRESENCE_TTL_SECS) [] =
      [⟨"bob".data, "online".data⟩])
    ∧ (PresenceEvent.mk "bob".data "online".data).user_id ≠
        "presence:bob".data :=
  ⟨snapshot_user_id_roundtrip.1 "bob".data (by decide),
   snapshot_user_id_roundtrip.2 "presence:bob".data (by decide)
     ⟨"bob".data, "online".data⟩ (by decide)⟩

/-- C6: assuming the store's keys are distinct and each is of the well-formed
shape `presence: ++ id` with `id` itself not starting with "presence:", the
snapshot of a connecting stream contains the event `{u, v}` exactly when the
key `presence: ++ u` holds value `v` at scan time and its per-key lookup did
not fail (a failed lookup, `unwrap_or(None)`, silently omits only that
user — the snapshot itself is a total function, so no per-key failure can
fail the connection), and the emitted user ids are pairwise distinct, so
each present user gets exactly one event and absent users get none. -/
theorem snapshot_complete_per_user (store : Store) (failing : List Str)
    (u v : Str)
    (hnd : (store.entries.map Entry.key).Nodup)
    (hids : ∀ e ∈ store.entries, ∃ w, ¬ presencePre.isPrefixOf w ∧
      e.key = presencePre ++ w) :
    (PresenceEvent.mk u v ∈ snapshot store failing ↔
      (store.get (presencePre ++ u) = some v ∧ presencePre ++ u ∉ failing))
    ∧ ((snapshot store failing).map PresenceEvent.user_id).Nodup := by
  have hne : presencePre ≠ [] := by decide
  have hsnap := snapshot_eq store failing hnd
  have htrim : ∀ e ∈ store.entries,
      ∀ w, ¬ presencePre.isPrefixOf w → e.key = presencePre ++ w →
      trimStartMatches presencePre e.key = w := by
    intro e _ w hw hk
    rw [hk, trimStartMatches_append _ _ hne, trimStartMatches_of_not _ _ hw]
  constructor
  · rw [hsnap]
    constructor
    · intro hmem
      rcases List.mem_map.mp hmem with ⟨e, hel, hge⟩
      have hq := (List.mem_filter.mp hel).2
      have hel1 := (List.mem_filter.mp hel).1
      have hee : e ∈ store.entries := (List.mem_filter.mp hel1).1
      rcases hids e hee with ⟨w, hw, hk⟩
      have ht : trimStartMatches presencePre e.key = w := htrim e hee w hw hk
      have hu : w = u := by
        have h1 := congrArg PresenceEvent.user_id hge
        simpa [ht] using h1
      have hv : e.value = v := congrArg PresenceEvent.presence hge
      subst hu
      refine ⟨?_, ?_⟩
      · rw [← hk, ← hv]
        exact Store.get_of_mem store hnd e hee
      · rw [← hk]
        intro hcontra
        simp [hcontra] at hq
    · rintro ⟨hget, hnf⟩
      rcases (Store.get_eq_some_iff store hnd _ _).mp hget with ⟨e, hee, hk, hv⟩
      rcases hids e hee with ⟨w, hw, hk'⟩
      have hwu : w = u := by
        have happ : presencePre ++ w = presencePre ++ u := by rw [← hk', hk]
        simpa using happ
      subst hwu
      refine List.mem_map.mpr ⟨e, ?_, ?_⟩
      · refine List.mem_filter.mpr ⟨List.mem_filter.mpr ⟨hee, ?_⟩, ?_⟩
        · rw [hk']
          exact List.isPrefixOf_iff_prefix.mpr (List.prefix_append _ _)
        · rw [hk]
          simpa using hnf
      · rw [htrim e hee w hw hk', hv]
  · rw [hsnap, List.map_map]
    have hlnd : ((store.entries.filter
        (fun e => presencePre.isPrefixOf e.key)).filter
        (fun e => ¬ e.key ∈ failing)).Nodup :=
      ((List.Nodup.of_map _ hnd).filter _).filter _
    refine hlnd.map_on ?_
    intro e1 h1 e2 h2 heq
    have he1 : e1 ∈ store.entries :=
      List.mem_of_mem_filter (List.mem_of_mem_filter h1)
    have he2 : e2 ∈ store.entries :=
      List.mem_of_mem_filter (List.mem_of_mem_filter h2)
    rcases hids e1 he1 with ⟨w1, hw1, hk1⟩
    rcases hids e2 he2 with ⟨w2, hw2, hk2⟩
    have ht1 := htrim e1 he1 w1 hw1 hk1
    have ht2 := htrim e2 he2 w2 hw2 hk2
    have hw12 : w1 = w2 := by
      have hts : trimStartMatches presencePre e1.key =
          trimStartMatches presencePre e2.key := heq
      rw [ht1, ht2] at hts
      exact hts
    have hkeq : e1.key = e2.key := by rw [hk1, hk2, hw12]
    exact List.inj_on_of_nodup_map hnd he1 he2 hkeq

/-- Witness for C6 on the concrete store with A and B online and C absent,
with no failing key: A's event is in the snapshot, C gets no event, and the
emitted user ids are distinct. -/
theorem snapshot_complete_per_user_witness :
    ((PresenceEvent.mk "A".data "online".data ∈ snapshot storeAB [] ↔
      (storeAB.get (presencePre ++ "A".data) = some "online".data ∧
        presencePre ++ "A".data ∉ ([] : List Str)))
    ∧ ((snapshot storeAB []).map PresenceEvent.user_id).Nodup)
    ∧ (PresenceEvent.mk "C".data "online".data ∈ snapshot storeAB [] ↔
      (storeAB.get (presencePre ++ "C".data) = some "online".data ∧
        presencePre ++ "C".data ∉ ([] : List Str))) := by
  have hnd : (storeAB.entries.map Entry.key).Nodup := by decide
  have hids : ∀ e ∈ storeAB.entries, ∃ w, ¬ presencePre.isPrefixOf w ∧
      e.key = presencePre ++ w := by
    intro e he
    rw [show storeAB.entries =
      [⟨presencePre ++ "A".data, "online".data, PRESENCE_TTL_SECS⟩,
       ⟨presencePre ++ "B".data, "online".data, PRESENCE_TTL_SECS⟩] from rfl]
      at he
    rcases List.mem_cons.mp he with h | h
    · exact ⟨"A".data, by decide, by rw [h]⟩
    · rw [List.mem_singleton] at h
      exact ⟨"B".data, by decide, by rw [h]⟩
  exact ⟨snapshot_complete_per_user storeAB [] "A".data "online".data hnd hids,
    (snapshot_complete_per_user storeAB [] "C".data "online".data hnd hids).1⟩

end Agora
